import Mathlib

/-!
Verification of the snmp-ai query pipeline.

This file shallowly embeds the core logic of the repository:
  * `app/services/mib_service.py`   — name registry (resolve / translate)
  * `app/services/snmp_service.py`  — SNMP executor (OID preparation,
    GET / GETNEXT / WALK / BULK dispatch, value normalization)
  * `app/utils/cache.py`            — TTL cache
  * `app/services/openai_service.py`— retry/backoff loop

Python strings are modelled as Lean `String`s with explicit character-list
operations (`listStarts` models `str.startswith`, `listHasSub` models the
`in` operator, and so on).  Python dicts (which preserve insertion order
and overwrite in place) are modelled as association lists with the
order-preserving update `dinsert`.  Wall-clock time and delays are
modelled as rationals.  The external SNMP transport and the external
language-model API are modelled as oracles supplied to the embedded
functions; every other ingredient is translated directly from the source.
-/

namespace SnmpAI

/-! ## String and association-list primitives -/

/-- Initial-segment test: `listStarts p l` holds when `p` begins `l`
(character-list model of Python `str.startswith`). -/
def listStarts : List Char → List Char → Bool
  | [], _ => true
  | _ :: _, [] => false
  | a :: as, b :: bs => a == b && listStarts as bs

/-- Containment test: `listHasSub n l` holds when `n` occurs contiguously
inside `l` (character-list model of the Python `in` operator on strings). -/
def listHasSub (n : List Char) : List Char → Bool
  | [] => listStarts n []
  | b :: bs => listStarts n (b :: bs) || listHasSub n bs

/-- Model of Python `s.startswith(p)`. -/
def strStarts (s p : String) : Bool := listStarts p.data s.data

/-- Model of Python `p in s` (substring containment). -/
def strHasSub (s p : String) : Bool := listHasSub p.data s.data

/-- Model of Python `s.lower()` (ASCII case folding suffices here). -/
def strLower (s : String) : String := String.mk (s.data.map Char.toLower)

/-- Model of Python `s.upper()`. -/
def strUpper (s : String) : String := String.mk (s.data.map Char.toUpper)

/-- Model of Python `s.lstrip('.')`: drop every leading dot. -/
def lstripDot (s : String) : String := String.mk (s.data.dropWhile (· == '.'))

/-- Model of Python `s.split(".")[0]`: the characters before the first dot. -/
def strTakeToDot (s : String) : String := String.mk (s.data.takeWhile (· != '.'))

/-- Model of Python `s[n:]` for ASCII strings (character slicing). -/
def strDropChars (s : String) (n : Nat) : String := String.mk (s.data.drop n)

/-- Model of Python `len(s)` (code points; all data here is ASCII). -/
def strCharLen (s : String) : Nat := s.data.length

/-- Model of Python `s.split(".", 1)` when `"." in s`:
the part before the first dot and the part after it. -/
def splitFirstDot (s : String) : String × String :=
  (String.mk (s.data.takeWhile (· != '.')),
   String.mk ((s.data.dropWhile (· != '.')).drop 1))

/-- Association-list lookup (model of Python dict lookup). -/
def dlookup (k : String) : List (String × α) → Option α
  | [] => none
  | (k', v) :: rest => if k' == k then some v else dlookup k rest

/-- Order-preserving insert-or-update (model of Python `d[k] = v`:
an existing key keeps its position, a new key is appended). -/
def dinsert (k : String) (v : α) : List (String × α) → List (String × α)
  | [] => [(k, v)]
  | (k', v') :: rest =>
      if k' == k then (k', v) :: rest else (k', v') :: dinsert k v rest

/-- Delete a key (model of Python `del d[k]`). -/
def dremove (k : String) : List (String × α) → List (String × α)
  | [] => []
  | (k', v) :: rest => if k' == k then rest else (k', v) :: dremove k rest

theorem dlookup_dinsert (k k' : String) (v : α) (l : List (String × α)) :
    dlookup k (dinsert k' v l) = if k' = k then some v else dlookup k l := by
  induction l with
  | nil =>
      by_cases h : k' = k <;> simp_all [dinsert, dlookup]
  | cons hd tl ih =>
      obtain ⟨k₀, v₀⟩ := hd
      by_cases h0 : k₀ = k' <;> by_cases h1 : k₀ = k <;> by_cases h2 : k' = k <;>
        simp_all [dinsert, dlookup]

/-! ## Name registry (`app/services/mib_service.py`) -/

/-- The table seeded by `MIBService._init_basic_mibs`, in insertion order:
`self.name_oid_cache[name] = oid` for each line of the source. -/
def basic_mib_table : List (String × String) :=
  [("SNMPv2-MIB::sysDescr.0", "1.3.6.1.2.1.1.1.0"),
   ("SNMPv2-MIB::sysObjectID.0", "1.3.6.1.2.1.1.2.0"),
   ("SNMPv2-MIB::sysUpTime.0", "1.3.6.1.2.1.1.3.0"),
   ("SNMPv2-MIB::sysContact.0", "1.3.6.1.2.1.1.4.0"),
   ("SNMPv2-MIB::sysName.0", "1.3.6.1.2.1.1.5.0"),
   ("SNMPv2-MIB::sysLocation.0", "1.3.6.1.2.1.1.6.0"),
   ("SNMPv2-MIB::sysServices.0", "1.3.6.1.2.1.1.7.0"),
   ("IF-MIB::ifNumber.0", "1.3.6.1.2.1.2.1.0"),
   ("IF-MIB::ifIndex", "1.3.6.1.2.1.2.2.1.1"),
   ("IF-MIB::ifDescr", "1.3.6.1.2.1.2.2.1.2"),
   ("IF-MIB::ifType", "1.3.6.1.2.1.2.2.1.3"),
   ("IF-MIB::ifMtu", "1.3.6.1.2.1.2.2.1.4"),
   ("IF-MIB::ifSpeed", "1.3.6.1.2.1.2.2.1.5"),
   ("IF-MIB::ifPhysAddress", "1.3.6.1.2.1.2.2.1.6"),
   ("IF-MIB::ifAdminStatus", "1.3.6.1.2.1.2.2.1.7"),
   ("IF-MIB::ifOperStatus", "1.3.6.1.2.1.2.2.1.8"),
   ("IF-MIB::ifInOctets", "1.3.6.1.2.1.2.2.1.10"),
   ("IF-MIB::ifOutOctets", "1.3.6.1.2.1.2.2.1.16")]

/-- State of `self.name_oid_cache` after initialization. -/
def name_oid_cache : List (String × String) := basic_mib_table

/-- State of `self.oid_name_cache`, built by
`for name, oid in self.name_oid_cache.items(): self.oid_name_cache[oid] = name`. -/
def oid_name_cache : List (String × String) :=
  basic_mib_table.foldl (fun acc p => dinsert p.2 p.1 acc) []

/-- Embeds `MIBService.resolve_oid`: exact lookup first, then `base.index`
splitting for index notation. -/
def resolve_oid (name : String) : Option String :=
  match dlookup name name_oid_cache with
  | some oid => some oid
  | none =>
      if strHasSub name "." && !(strStarts name ".") then
        let (base, index) := splitFirstDot name
        match dlookup base name_oid_cache with
        | some oid => some (oid ++ "." ++ index)
        | none => none
      else none

/-- First prefix match in `MIBService.translate_oid`'s loop
`for known_oid, known_name in self.oid_name_cache.items(): ...`. -/
def firstDotPrefixHit (oid : String) : List (String × String) → Option String
  | [] => none
  | (known_oid, known_name) :: rest =>
      if strStarts oid (known_oid ++ ".") then
        some (strTakeToDot known_name ++ strDropChars oid (strCharLen known_oid))
      else firstDotPrefixHit oid rest

/-- Embeds `MIBService.translate_oid`: exact reverse lookup first, then the
first registered OID that is a dotted prefix of the query. -/
def translate_oid (oid : String) : Option String :=
  match dlookup oid oid_name_cache with
  | some name => some name
  | none => firstDotPrefixHit oid oid_name_cache

/-- Embeds `MIBService.get_mib_oids`, which filters `name_oid_cache` by the
`"{mib_name}::"` name prefix.  (The source routes the result through the
process-wide cache; since the underlying table is fixed after
initialization, the cached value always equals this recomputation.) -/
def get_mib_oids (mib_name : String) : List String :=
  (name_oid_cache.filter (fun p => strStarts p.1 (mib_name ++ "::"))).map (·.2)

/-! ## SNMP values and normalization (`SNMPService._format_value`) -/

/-- Wire values handed back by the SNMP client, as discriminated by the
`isinstance` tests in `_format_value`: raw byte strings, Python `int`,
`str`, `bool`, `float` (carried opaquely, the executor never computes with
it), and any other wire type together with its `str()` rendering. -/
inductive SnmpValue
  | vbytes (bs : List Nat)
  | vint (i : Int)
  | vstr (s : String)
  | vbool (b : Bool)
  | vfloat (bits : Nat)
  | vother (rendering : String)

/-- Values after normalization: JSON-representable primitives. -/
inductive FormattedValue
  | fstr (s : String)
  | fint (i : Int)
  | fbool (b : Bool)
  | ffloat (bits : Nat)
deriving DecidableEq

/-- Strict UTF-8 decoding of a byte sequence, one byte per step.
`pend` is the number of continuation bytes still expected in the current
sequence, `cp` the code-point value assembled so far (successive base-64
digits), and `lo`/`hi` the admissible range of the next continuation
byte; the narrowed ranges after `0xE0`/`0xED`/`0xF0`/`0xF4` encode the
restrictions that reject overlong encodings, surrogates and code points
above `0x10FFFF`.  This models the strict `bytes.decode('utf-8')` the
source relies on: leading bytes `0x80..0xC1` and `0xF5..0xFF`, any
out-of-range continuation byte, and a truncated final sequence all fail. -/
def utf8Run (pend cp lo hi : Nat) : List Nat → Option (List Char)
  | [] => if pend = 0 then some [] else none
  | b :: rest =>
      if pend = 0 then
        if b ≤ 0x7F then (utf8Run 0 0 0 0 rest).map (Char.ofNat b :: ·)
        else if 0xC2 ≤ b && b ≤ 0xDF then utf8Run 1 (b - 0xC0) 0x80 0xBF rest
        else if b = 0xE0 then utf8Run 2 0 0xA0 0xBF rest
        else if b = 0xED then utf8Run 2 0xD 0x80 0x9F rest
        else if 0xE1 ≤ b && b ≤ 0xEF then utf8Run 2 (b - 0xE0) 0x80 0xBF rest
        else if b = 0xF0 then utf8Run 3 0 0x90 0xBF rest
        else if b = 0xF4 then utf8Run 3 4 0x80 0x8F rest
        else if 0xF1 ≤ b && b ≤ 0xF3 then utf8Run 3 (b - 0xF0) 0x80 0xBF rest
        else none
      else
        if lo ≤ b && b ≤ hi then
          if pend = 1 then
            (utf8Run 0 0 0 0 rest).map (Char.ofNat (cp * 0x40 + (b - 0x80)) :: ·)
          else utf8Run (pend - 1) (cp * 0x40 + (b - 0x80)) 0x80 0xBF rest
        else none

/-- Model of Python `bytes.decode('utf-8')` under the `try` of
`_format_value`: the decoded text on success, absence when the codec
would raise `UnicodeDecodeError`. -/
def utf8Decode (bs : List Nat) : Option (List Char) := utf8Run 0 0 0 0 bs

/-- One hexadecimal digit, lowercase, as produced by Python `bytes.hex()`. -/
def hexDigit (n : Nat) : Char :=
  if n < 10 then Char.ofNat (0x30 + n) else Char.ofNat (0x57 + n)

/-- Model of Python `bytes.hex()`: two lowercase digits per byte. -/
def bytesToHex (bs : List Nat) : String :=
  String.mk ((bs.map (fun b => [hexDigit (b / 16), hexDigit (b % 16)])).flatten)

/-- Embeds `SNMPService._format_value`: bytes are UTF-8-decoded when
possible and hex-rendered otherwise; `int`/`str`/`bool`/`float` pass
through; every other type is stringified. -/
def format_value : SnmpValue → FormattedValue
  | .vbytes bs =>
      match utf8Decode bs with
      | some cs => .fstr (String.mk cs)
      | none => .fstr (bytesToHex bs)
  | .vint i => .fint i
  | .vstr s => .fstr s
  | .vbool b => .fbool b
  | .vfloat bits => .ffloat bits
  | .vother rendering => .fstr rendering

/-! ## SNMP executor (`app/services/snmp_service.py`)

The transport (the `puresnmp` client) is external; each protocol call is
modelled by an oracle giving, per OID, either the returned value or the
exception the call raised.  Inside `_execute_get` / `_execute_getnext` /
`_execute_walk` the per-OID `try` blocks catch `SnmpError` and the
catch-all `Exception`, so no exception ever escapes the per-OID loop and
the trailing `if not result: result["error"] = ...` branches of those
helpers are unreachable; they therefore have no counterpart here.
`_execute_bulk` has no per-OID handler: its surrounding `try` is the
abort point modelled below. -/

/-- Result maps are Python dicts of normalized values. -/
abbrev RMap := List (String × FormattedValue)

/-- Outcome of one `client.get(oid)` call: a value, a raised
`puresnmp` `SnmpError` (which includes `Timeout`), or any other raised
exception (e.g. `ConnectionRefusedError`), with its message. -/
inductive GetOutcome
  | ok (v : SnmpValue)
  | snmpErr (msg : String)
  | exc (msg : String)

/-- The entry `_execute_get` records for one OID: on success the value
keyed by `translate_oid(oid) or oid`; on `SnmpError` the strings
`"No such object"` / `"No such instance"` when the lowercased message
contains them, else `"Error: " + msg`; on any other exception
`"Error: " + msg`. -/
def snmp_get_entry (translate : String → Option String) (oid : String) :
    GetOutcome → String × FormattedValue
  | .ok v => ((translate oid).getD oid, format_value v)
  | .snmpErr m =>
      if strHasSub (strLower m) "no such object" then (oid, .fstr "No such object")
      else if strHasSub (strLower m) "no such instance" then (oid, .fstr "No such instance")
      else (oid, .fstr ("Error: " ++ m))
  | .exc m => (oid, .fstr ("Error: " ++ m))

/-- The per-OID loop of `_execute_get` over the accumulated result dict. -/
def execute_get_go (translate : String → Option String) (call : String → GetOutcome) :
    List String → RMap → RMap
  | [], acc => acc
  | oid :: rest, acc =>
      let e := snmp_get_entry translate oid (call oid)
      execute_get_go translate call rest (dinsert e.1 e.2 acc)

/-- Embeds `SNMPService._execute_get`. -/
def execute_get (translate : String → Option String) (call : String → GetOutcome)
    (oids : List String) : RMap :=
  execute_get_go translate call oids []

/-- Outcome of one `client.getnext(oid)` call: the next OID with its
value, or a raised exception's message (every exception class is handled
alike there). -/
inductive NextOutcome
  | ok (next_oid : String) (v : SnmpValue)
  | exc (msg : String)

/-- The entry `_execute_getnext` records for one OID.  On success the key
is `translate_oid("." + next_oid) or next_oid`. -/
def snmp_getnext_entry (translate : String → Option String) (oid : String) :
    NextOutcome → String × FormattedValue
  | .ok next_oid v => ((translate ("." ++ next_oid)).getD next_oid, format_value v)
  | .exc m => (oid, .fstr ("Error: " ++ m))

/-- The per-OID loop of `_execute_getnext`. -/
def execute_getnext_go (translate : String → Option String) (call : String → NextOutcome) :
    List String → RMap → RMap
  | [], acc => acc
  | oid :: rest, acc =>
      let e := snmp_getnext_entry translate oid (call oid)
      execute_getnext_go translate call rest (dinsert e.1 e.2 acc)

/-- Embeds `SNMPService._execute_getnext`. -/
def execute_getnext (translate : String → Option String) (call : String → NextOutcome)
    (oids : List String) : RMap :=
  execute_getnext_go translate call oids []

/-- Merge a list of `(oid, value)` pairs into the result dict, each keyed
by `translate_oid("." + oid) or oid` — the shared pattern of `_execute_walk`
and `_execute_bulk`. -/
def merge_pairs (translate : String → Option String) :
    List (String × SnmpValue) → RMap → RMap
  | [], acc => acc
  | (o, v) :: rest, acc =>
      merge_pairs translate rest (dinsert ((translate ("." ++ o)).getD o) (format_value v) acc)

/-- Outcome of iterating `client.walk(oid)`: the pairs the generator
yielded before finishing, and the message of the exception that stopped
it mid-iteration, if any. -/
abbrev WalkOutcome := List (String × SnmpValue) × Option String

/-- The per-OID loop of `_execute_walk`: merge the yielded pairs; if the
walk raised, also record `"{oid}_error"`; then continue with the rest. -/
def execute_walk_go (translate : String → Option String) (call : String → WalkOutcome) :
    List String → RMap → RMap
  | [], acc => acc
  | oid :: rest, acc =>
      let merged := merge_pairs translate (call oid).1 acc
      match (call oid).2 with
      | none => execute_walk_go translate call rest merged
      | some m =>
          execute_walk_go translate call rest
            (dinsert (oid ++ "_error") (.fstr ("Error: " ++ m)) merged)

/-- Embeds `SNMPService._execute_walk`. -/
def execute_walk (translate : String → Option String) (call : String → WalkOutcome)
    (oids : List String) : RMap :=
  execute_walk_go translate call oids []

/-- Outcome of one `client.bulkget(oid, scalar_oids, repeating_oids)`
call: the returned `(oid, value)` map, or a raised exception's message. -/
inductive BulkOutcome
  | ok (pairs : List (String × SnmpValue))
  | exc (msg : String)

/-- The loop of `_execute_bulk`.  There is no per-OID handler: the first
exception aborts the loop, and the surrounding handler sets
`result["error"] = str(e)` next to whatever was already merged. -/
def execute_bulk_go (translate : String → Option String)
    (call : String → Nat → Nat → BulkOutcome) (nr mr : Nat) :
    List String → RMap → RMap
  | [], acc => acc
  | oid :: rest, acc =>
      match call oid nr mr with
      | .ok pairs => execute_bulk_go translate call nr mr rest (merge_pairs translate pairs acc)
      | .exc m => dinsert "error" (.fstr m) acc

/-- Embeds `SNMPService._execute_bulk`. -/
def execute_bulk (translate : String → Option String)
    (call : String → Nat → Nat → BulkOutcome) (oids : List String) (nr mr : Nat) : RMap :=
  execute_bulk_go translate call nr mr oids []

/-! ## OID preparation and dispatch -/

/-- Contribution of one `operation.oids` entry in
`SNMPService._prepare_oids`: leading-dot entries are `lstrip('.')`-ped and
used verbatim; otherwise resolution via the registry is attempted; when it
fails, an entry containing `"::"` contributes nothing (that branch has no
fallback) while a bare name falls back to itself as a raw OID. -/
def prepare_entry (oid : String) : List String :=
  if strStarts oid "." then [lstripDot oid]
  else if strHasSub oid "::" then
    match resolve_oid oid with
    | some r => [lstripDot r]
    | none => []
  else
    match resolve_oid oid with
    | some r => [lstripDot r]
    | none => [lstripDot oid]

/-- Embeds `SNMPService._prepare_oids`: the per-entry contributions in
order, then every OID of every listed MIB. -/
def prepare_oids (oids mib_names : List String) : List String :=
  (oids.map prepare_entry).flatten ++ ((mib_names.map get_mib_oids).flatten.map lstripDot)

/-- The `operation` part of a structured query (`SNMPOperation` model). -/
structure SNMPOperation where
  command : String
  oids : List String
  mib_names : List String
  max_repetitions : Option Nat := none
  non_repeaters : Option Nat := none

/-- A structured query, reduced to the fields `execute_query` reads. -/
structure SNMPQuery where
  host : String
  port : Nat := 161
  version : String := "2c"
  community : Option String := none
  operation : SNMPOperation

/-- The external SNMP transport, one oracle per protocol call. -/
structure ClientOracle where
  get : String → GetOutcome
  getnext : String → NextOutcome
  walk : String → WalkOutcome
  bulkget : String → Nat → Nat → BulkOutcome

/-- Model of Python `x or d` on optional integers: `None` and `0` are
falsy (`non_repeaters or 0`, `max_repetitions or 10`). -/
def orFalsy (o : Option Nat) (d : Nat) : Nat :=
  match o with
  | none => d
  | some 0 => d
  | some n => n

/-- Embeds `SNMPService.execute_query`: prepare the OIDs, fail fast when
none remain, gate on the protocol version (client construction), then
dispatch on the upper-cased command.  The `Timeout` / `ConnectionRefused`
/ `SnmpError` handlers around the dispatch catch only exceptions escaping
the helpers, which (see above) the helpers never raise. -/
def execute_query (client : ClientOracle) (q : SNMPQuery) : RMap :=
  let oids := prepare_oids q.operation.oids q.operation.mib_names
  if oids.isEmpty then [("error", .fstr "No valid OIDs specified")]
  else if q.version == "1" || q.version == "2c" then
    let cmd := strUpper q.operation.command
    if cmd == "GET" then execute_get translate_oid client.get oids
    else if cmd == "GETNEXT" then execute_getnext translate_oid client.getnext oids
    else if cmd == "WALK" then execute_walk translate_oid client.walk oids
    else if cmd == "BULK" then
      execute_bulk translate_oid client.bulkget oids
        (orFalsy q.operation.non_repeaters 0) (orFalsy q.operation.max_repetitions 10)
    else [("error", .fstr ("Unsupported SNMP command: " ++ q.operation.command))]
  else [("error", .fstr "Only SNMP versions 1 and 2c are currently supported")]



/-! ## TTL cache (`app/utils/cache.py`) -/

/-- Process-wide cache state: the `_cache` dict mapping keys to
`(value, timestamp, ttl)` triples, the `_last_cleanup` stamp, and the
`config.cache_enabled` flag the module consults.  Time is modelled in
rational seconds. -/
structure CacheState (α : Type) where
  enabled : Bool
  entries : List (String × (α × ℚ × ℚ))
  last_cleanup : ℚ

/-- The `CLEANUP_INTERVAL` constant of `_maybe_cleanup_cache`. -/
def cleanup_interval : ℚ := 60

/-- Value of `config.cache_ttl` (`app/core/config.py`): 3600 seconds. -/
def config_cache_ttl : ℚ := 3600

/-- Embeds `_maybe_cleanup_cache`: at most once per `cleanup_interval`,
drop every expired entry and stamp the sweep time. -/
def maybe_cleanup_cache (st : CacheState α) (now : ℚ) : CacheState α :=
  if now - st.last_cleanup > cleanup_interval then
    { st with
      entries := st.entries.filter (fun e => !decide (now - e.2.2.1 > e.2.2.2)),
      last_cleanup := now }
  else st

/-- Embeds `get_cache`, returning the looked-up value together with the
state after the call (reading an expired entry deletes it; a hit may
trigger the periodic sweep). -/
def get_cache (st : CacheState α) (now : ℚ) (key : String) : Option α × CacheState α :=
  if !st.enabled then (none, st)
  else
    match dlookup key st.entries with
    | none => (none, st)
    | some (v, ts, ttl) =>
        if now - ts > ttl then (none, { st with entries := dremove key st.entries })
        else (some v, maybe_cleanup_cache st now)

/-- Embeds `set_cache`: `ttl or config.cache_ttl` replaces a `None` or
`0` argument (both falsy in Python) by the configured default, then the
entry is stored unconditionally. -/
def set_cache (st : CacheState α) (now : ℚ) (key : String) (value : α)
    (ttl : Option ℚ) : CacheState α :=
  if !st.enabled then st
  else
    let stored : ℚ :=
      match ttl with
      | none => config_cache_ttl
      | some t => if t = 0 then config_cache_ttl else t
    { st with entries := dinsert key (value, now, stored) st.entries }

/-! ## Language-model retry loop (`OpenAIService._call_openai_with_retry`) -/

/-- `self.max_retries` in `OpenAIService.__init__`. -/
def max_retries : Nat := 3

/-- `self.retry_base_delay` in `OpenAIService.__init__` (seconds). -/
def retry_base_delay : ℚ := 1

/-- One attempted API call, classified exactly by the exception handlers
of `_call_openai_with_retry`: success, `RateLimitError`,
`APIConnectionError`, `APIError` carrying its `status_code` (a missing
code modelled as `none`), another `OpenAIError`, or any other exception. -/
inductive ApiOutcome
  | success
  | rateLimited
  | connFailure
  | apiFailure (status : Option Nat)
  | openaiFailure
  | otherFailure

/-- Trace of one run of the retry loop: whether a response was obtained,
how many API calls were attempted, and the back-off delays slept between
them, in order. -/
structure RetryTrace where
  ok : Bool
  attempts : Nat
  delays : List ℚ
deriving DecidableEq

/-- The `while retry_count <= self.max_retries` loop.  `outcome i` is the
result of the `i`-th call (0-based, so `retry_count = i` when the loop
body starts it) and `jitter i` is the value `time.time() % 1` read in
that iteration's back-off computation.  The fuel starts at
`max_retries + 1`, the number of loop entries the guard admits; the
post-increment `retry_count > self.max_retries` checks below make the
fuel-exhausted base case (Python's final `return None`) unreachable. -/
def call_openai_go (outcome : Nat → ApiOutcome) (jitter : Nat → ℚ) :
    Nat → Nat → RetryTrace
  | _, 0 => ⟨false, 0, []⟩
  | i, fuel + 1 =>
      match outcome i with
      | .success => ⟨true, 1, []⟩
      | .rateLimited =>
          if i + 1 > max_retries then ⟨false, 1, []⟩
          else
            let d := retry_base_delay * 2 ^ i + jitter i
            let t := call_openai_go outcome jitter (i + 1) fuel
            ⟨t.ok, t.attempts + 1, d :: t.delays⟩
      | .connFailure =>
          if i + 1 > max_retries then ⟨false, 1, []⟩
          else
            let d := retry_base_delay * ((i : ℚ) + 1)
            let t := call_openai_go outcome jitter (i + 1) fuel
            ⟨t.ok, t.attempts + 1, d :: t.delays⟩
      | .apiFailure status =>
          match status with
          | some s =>
              if 500 ≤ s && s < 600 then
                if i + 1 > max_retries then ⟨false, 1, []⟩
                else
                  let d := retry_base_delay * ((i : ℚ) + 1)
                  let t := call_openai_go outcome jitter (i + 1) fuel
                  ⟨t.ok, t.attempts + 1, d :: t.delays⟩
              else ⟨false, 1, []⟩
          | none => ⟨false, 1, []⟩
      | .openaiFailure => ⟨false, 1, []⟩
      | .otherFailure => ⟨false, 1, []⟩

/-- Embeds `_call_openai_with_retry`. -/
def call_openai_with_retry (outcome : Nat → ApiOutcome) (jitter : Nat → ℚ) : RetryTrace :=
  call_openai_go outcome jitter 0 (max_retries + 1)



/-! ## Supporting lemmas -/

theorem firstDotPrefixHit_sound (oid r : String) (l : List (String × String))
    (h : firstDotPrefixHit oid l = some r) :
    ∃ p ∈ l, strStarts oid (p.1 ++ ".") = true ∧
      r = strTakeToDot p.2 ++ strDropChars oid (strCharLen p.1) := by
  induction l with
  | nil => simp [firstDotPrefixHit] at h
  | cons hd tl ih =>
      obtain ⟨k, n⟩ := hd
      by_cases hs : strStarts oid (k ++ ".") = true
      · refine ⟨(k, n), by simp, hs, ?_⟩
        simp [firstDotPrefixHit, hs] at h
        exact h.symm
      · simp [firstDotPrefixHit, hs] at h
        obtain ⟨p, hp, hps, hr⟩ := ih h
        exact ⟨p, by simp [hp], hps, hr⟩

theorem firstDotPrefixHit_isSome (oid : String) (l : List (String × String))
    (h : ∃ p ∈ l, strStarts oid (p.1 ++ ".") = true) :
    (firstDotPrefixHit oid l).isSome = true := by
  induction l with
  | nil => simp at h
  | cons hd tl ih =>
      obtain ⟨k, n⟩ := hd
      by_cases hs : strStarts oid (k ++ ".") = true
      · simp [firstDotPrefixHit, hs]
      · obtain ⟨p, hp, hps⟩ := h
        rcases List.mem_cons.mp hp with h1 | h1
        · rw [h1] at hps; exact absurd hps hs
        · simpa [firstDotPrefixHit, hs] using ih ⟨p, h1, hps⟩

theorem firstDotPrefixHit_none (oid : String) (l : List (String × String))
    (h : ∀ p ∈ l, strStarts oid (p.1 ++ ".") = false) :
    firstDotPrefixHit oid l = none := by
  induction l with
  | nil => rfl
  | cons hd tl ih =>
      obtain ⟨k, n⟩ := hd
      have hk := h (k, n) (by simp)
      simp at hk
      simp [firstDotPrefixHit, hk]
      exact ih fun p hp => h p (by simp [hp])

/-! ## Claims about the name registry -/

/-- C5: for every symbolic name `N` with OID `O` in the seeded built-in
table, `resolve(N)` returns `O` and `translate(O)` returns `N`. -/
theorem C5_resolve_translate_roundtrip :
    ∀ p ∈ basic_mib_table, resolve_oid p.1 = some p.2 ∧ translate_oid p.2 = some p.1 := by
  decide

/-- Witness for C5 at the first seeded entry. -/
theorem C5_resolve_translate_roundtrip_witness :
    resolve_oid "SNMPv2-MIB::sysDescr.0" = some "1.3.6.1.2.1.1.1.0" ∧
    translate_oid "1.3.6.1.2.1.1.1.0" = some "SNMPv2-MIB::sysDescr.0" :=
  C5_resolve_translate_roundtrip ("SNMPv2-MIB::sysDescr.0", "1.3.6.1.2.1.1.1.0") (by decide)

/-- C6: `translate` returns the registered name on an exact match;
otherwise, when some registered OID is a dotted-decimal prefix of the
query, it returns that entry's name with any index stripped (the part
before the first dot) concatenated with the remaining dotted suffix;
otherwise it returns absence.  In particular
`translate("1.3.6.1.2.1.1.1.0.5")` is the sysDescr-derived name with
suffix `.5`. -/
theorem C6_translate_oid_spec :
    (∀ oid n, dlookup oid oid_name_cache = some n → translate_oid oid = some n) ∧
    (∀ oid, dlookup oid oid_name_cache = none →
      (∃ p ∈ oid_name_cache, strStarts oid (p.1 ++ ".") = true) →
      ∃ p ∈ oid_name_cache, strStarts oid (p.1 ++ ".") = true ∧
        translate_oid oid = some (strTakeToDot p.2 ++ strDropChars oid (strCharLen p.1))) ∧
    (∀ oid, dlookup oid oid_name_cache = none →
      (∀ p ∈ oid_name_cache, strStarts oid (p.1 ++ ".") = false) →
      translate_oid oid = none) ∧
    translate_oid "1.3.6.1.2.1.1.1.0.5" = some "SNMPv2-MIB::sysDescr.5" := by
  refine ⟨?_, ?_, ?_, by decide⟩
  · intro oid n h
    simp [translate_oid, h]
  · intro oid hnone hex
    have hsome := firstDotPrefixHit_isSome oid oid_name_cache hex
    obtain ⟨r, hr⟩ := Option.isSome_iff_exists.mp hsome
    obtain ⟨p, hp, hps, hshape⟩ := firstDotPrefixHit_sound oid r oid_name_cache hr
    exact ⟨p, hp, hps, by simp [translate_oid, hnone, hr, hshape]⟩
  · intro oid hnone hall
    simp [translate_oid, hnone, firstDotPrefixHit_none oid oid_name_cache hall]

/-- Witness for C6: an exact translation and a failing translation. -/
theorem C6_translate_oid_spec_witness :
    translate_oid "1.3.6.1.2.1.2.2.1.2" = some "IF-MIB::ifDescr" ∧
    translate_oid "9.9.9" = none :=
  ⟨C6_translate_oid_spec.1 "1.3.6.1.2.1.2.2.1.2" "IF-MIB::ifDescr" (by decide),
   C6_translate_oid_spec.2.2.1 "9.9.9" (by decide) (by decide)⟩

/-! ## Claims about OID preparation -/

/-- C3 counterexample: the claim says an entry whose registry resolution
fails is always still included in the prepared list as a raw OID, but an
unresolvable entry containing `"::"` is silently dropped — here the
prepared list comes out empty rather than containing the raw string, and
the executor then reports "No valid OIDs specified". -/
theorem C3_counterexample :
    resolve_oid "FOO-MIB::bar" = none ∧
    prepare_oids ["FOO-MIB::bar"] [] = [] ∧
    execute_query
      ⟨fun _ => .ok (.vstr "v"), fun _ => .exc "e", fun _ => ([], none), fun _ _ _ => .exc "e"⟩
      ⟨"10.0.0.1", 161, "2c", none, ⟨"GET", ["FOO-MIB::bar"], [], none, none⟩⟩ =
      [("error", .fstr "No valid OIDs specified")] := by
  decide

/-- C3 (amended): for each entry of `operation.oids`: a leading-dot entry
has its leading dots stripped and is used verbatim; otherwise registry
resolution is attempted (for both `MIB::name` and bare-name forms) and on
success the resolved OID is used; when resolution fails, an entry
containing `"::"` is dropped from the prepared list, while a bare-name
entry is included as a raw OID; and if the final prepared list is empty
the executor returns the immediate error "No valid OIDs specified"
without consulting the transport. -/
theorem C3_amended_prepare_oids_spec :
    (∀ oid rest mibs, strStarts oid "." = true →
      prepare_oids (oid :: rest) mibs = lstripDot oid :: prepare_oids rest mibs) ∧
    (∀ oid rest mibs r, strStarts oid "." = false → resolve_oid oid = some r →
      prepare_oids (oid :: rest) mibs = lstripDot r :: prepare_oids rest mibs) ∧
    (∀ oid rest mibs, strStarts oid "." = false → strHasSub oid "::" = true →
      resolve_oid oid = none →
      prepare_oids (oid :: rest) mibs = prepare_oids rest mibs) ∧
    (∀ oid rest mibs, strStarts oid "." = false → strHasSub oid "::" = false →
      resolve_oid oid = none →
      prepare_oids (oid :: rest) mibs = lstripDot oid :: prepare_oids rest mibs) ∧
    (∀ client q, (prepare_oids q.operation.oids q.operation.mib_names).isEmpty = true →
      execute_query client q = [("error", .fstr "No valid OIDs specified")]) := by
  refine ⟨?_, ?_, ?_, ?_, ?_⟩
  · intro oid rest mibs h
    simp [prepare_oids, prepare_entry, h]
  · intro oid rest mibs r h hr
    by_cases hsub : strHasSub oid "::" = true <;>
      simp [prepare_oids, prepare_entry, h, hr, hsub]
  · intro oid rest mibs h hsub hr
    simp [prepare_oids, prepare_entry, h, hsub, hr]
  · intro oid rest mibs h hsub hr
    simp [prepare_oids, prepare_entry, h, hsub, hr]
  · intro client q h
    simp [execute_query, h]

/-- Witness for C3 (amended): a dropped `"::"` entry next to a kept
dotted entry, and the empty-list error path. -/
theorem C3_amended_prepare_oids_spec_witness :
    prepare_oids ["FOO-MIB::nope", ".1.2.3"] [] = prepare_oids [".1.2.3"] [] ∧
    execute_query
      ⟨fun _ => .ok (.vstr "v"), fun _ => .exc "e", fun _ => ([], none), fun _ _ _ => .exc "e"⟩
      ⟨"10.0.0.1", 161, "2c", none, ⟨"GET", [], [], none, none⟩⟩ =
      [("error", .fstr "No valid OIDs specified")] :=
  ⟨C3_amended_prepare_oids_spec.2.2.1 "FOO-MIB::nope" [".1.2.3"] [] (by decide) (by decide)
      (by decide),
   C3_amended_prepare_oids_spec.2.2.2.2 _ _ (by decide)⟩


/-! ## Claims about executor error handling -/

/-- Whether a GET call raised (either handled exception class) instead of
returning a value. -/
def GetOutcome.isFailure : GetOutcome → Bool
  | .ok _ => false
  | .snmpErr _ => true
  | .exc _ => true

/-- The error string `_execute_get` records for a failed call. -/
def get_failure_text : GetOutcome → String
  | .ok _ => ""
  | .snmpErr m =>
      if strHasSub (strLower m) "no such object" then "No such object"
      else if strHasSub (strLower m) "no such instance" then "No such instance"
      else "Error: " ++ m
  | .exc m => "Error: " ++ m

theorem snmp_get_entry_of_failure (t : String → Option String) (oid : String)
    (o : GetOutcome) (h : o.isFailure = true) :
    snmp_get_entry t oid o = (oid, .fstr (get_failure_text o)) := by
  cases o with
  | ok v => simp [GetOutcome.isFailure] at h
  | snmpErr m =>
      simp only [snmp_get_entry, get_failure_text]
      split_ifs <;> rfl
  | exc m => rfl

theorem dlookup_execute_get_go_all_fail (t : String → Option String)
    (c : String → GetOutcome) (k : String) :
    ∀ (oids : List String) (acc : RMap), (∀ o ∈ oids, (c o).isFailure = true) →
      dlookup k (execute_get_go t c oids acc) =
        if k ∈ oids then some (.fstr (get_failure_text (c k))) else dlookup k acc := by
  intro oids
  induction oids with
  | nil => intro acc _; simp [execute_get_go]
  | cons o rest ih =>
      intro acc hfail
      have ho := hfail o (by simp)
      have hrest : ∀ x ∈ rest, (c x).isFailure = true := fun x hx => hfail x (by simp [hx])
      simp only [execute_get_go, snmp_get_entry_of_failure t o (c o) ho]
      rw [ih (dinsert o (.fstr (get_failure_text (c o))) acc) hrest, dlookup_dinsert]
      by_cases h2 : o = k
      · subst h2
        by_cases h1 : o ∈ rest <;> simp_all
      · by_cases h1 : k ∈ rest <;> simp_all [Ne.symm h2]

/-- C1 counterexample: a GET in which every per-OID request fails (a
timeout surfacing as a `puresnmp` error on both OIDs) produces one inline
error entry per OID and no top-level `error` entry — not the claimed
single top-level `error` with no per-OID entries. -/
theorem C1_counterexample :
    execute_get translate_oid (fun _ => .snmpErr "request timed out")
        ["1.3.6.1.2.1.1.1.0", "1.3.6.1.2.1.1.5.0"] =
      [("1.3.6.1.2.1.1.1.0", .fstr "Error: request timed out"),
       ("1.3.6.1.2.1.1.5.0", .fstr "Error: request timed out")] ∧
    dlookup "error"
      (execute_get translate_oid (fun _ => .snmpErr "request timed out")
        ["1.3.6.1.2.1.1.1.0", "1.3.6.1.2.1.1.5.0"]) = none := by
  decide

/-- C1 (amended): for a GET over a non-empty prepared OID list in which
every per-OID protocol request fails, each failure is recorded inline as
a per-OID error entry under that OID's key (classified as in the source)
and no top-level `error` entry is produced (assuming no prepared OID is
itself the literal string "error"). -/
theorem C1_amended_get_all_fail (c : String → GetOutcome) (oids : List String)
    (hne : oids ≠ []) (hfail : ∀ o ∈ oids, (c o).isFailure = true)
    (herr : "error" ∉ oids) :
    dlookup "error" (execute_get translate_oid c oids) = none ∧
    ∀ o ∈ oids, dlookup o (execute_get translate_oid c oids) =
      some (.fstr (get_failure_text (c o))) := by
  constructor
  · rw [execute_get, dlookup_execute_get_go_all_fail translate_oid c "error" oids [] hfail]
    simp [herr, dlookup]
  · intro o ho
    rw [execute_get, dlookup_execute_get_go_all_fail translate_oid c o oids [] hfail]
    simp [ho]

/-- Witness for C1 (amended) with one refused connection. -/
theorem C1_amended_get_all_fail_witness :
    dlookup "error"
      (execute_get translate_oid (fun _ => GetOutcome.exc "connection refused") ["9.9"]) =
        none ∧
    ∀ o ∈ ["9.9"],
      dlookup o (execute_get translate_oid (fun _ => GetOutcome.exc "connection refused")
        ["9.9"]) = some (.fstr (get_failure_text (GetOutcome.exc "connection refused"))) :=
  C1_amended_get_all_fail _ _ (by decide) (fun _ _ => rfl) (by decide)

theorem execute_get_go_append (t : String → Option String) (c : String → GetOutcome)
    (xs ys : List String) (acc : RMap) :
    execute_get_go t c (xs ++ ys) acc = execute_get_go t c ys (execute_get_go t c xs acc) := by
  induction xs generalizing acc with
  | nil => simp [execute_get_go]
  | cons o rest ih => simp [execute_get_go, ih]

theorem execute_getnext_go_append (t : String → Option String) (c : String → NextOutcome)
    (xs ys : List String) (acc : RMap) :
    execute_getnext_go t c (xs ++ ys) acc =
      execute_getnext_go t c ys (execute_getnext_go t c xs acc) := by
  induction xs generalizing acc with
  | nil => simp [execute_getnext_go]
  | cons o rest ih => simp [execute_getnext_go, ih]

theorem execute_walk_go_append (t : String → Option String) (c : String → WalkOutcome)
    (xs ys : List String) (acc : RMap) :
    execute_walk_go t c (xs ++ ys) acc =
      execute_walk_go t c ys (execute_walk_go t c xs acc) := by
  induction xs generalizing acc with
  | nil => simp [execute_walk_go]
  | cons o rest ih =>
      simp only [List.cons_append, execute_walk_go]
      cases h : (c o).2 <;> simp [h, ih]

theorem execute_bulk_go_ok_prefix_fail (t : String → Option String)
    (c : String → Nat → Nat → BulkOutcome) (nr mr : Nat) (o m : String)
    (hfail : c o nr mr = .exc m) :
    ∀ (xs ys : List String) (acc : RMap), (∀ x ∈ xs, ∃ ps, c x nr mr = .ok ps) →
      execute_bulk_go t c nr mr (xs ++ o :: ys) acc =
        dinsert "error" (.fstr m) (execute_bulk_go t c nr mr xs acc) := by
  intro xs
  induction xs with
  | nil => intro ys acc _; simp [execute_bulk_go, hfail]
  | cons x rest ih =>
      intro ys acc hok
      obtain ⟨ps, hx⟩ := hok x (by simp)
      have hrest : ∀ y ∈ rest, ∃ ps, c y nr mr = .ok ps := fun y hy => hok y (by simp [hy])
      simp [execute_bulk_go, hx, ih ys (merge_pairs t ps acc) hrest]

/-- C2 counterexample: a transport-level failure on the first OID of a
GET (a refused connection raised inside `client.get`) does not abort the
command — the second OID is still queried and lands in the result, and no
top-level `error` entry appears. -/
theorem C2_counterexample :
    execute_get translate_oid
        (fun o => if o == "9.9" then .exc "connection refused"
                  else .ok (.vstr "eth0"))
        ["9.9", "1.3.6.1.2.1.2.2.1.2"] =
      [("9.9", .fstr "Error: connection refused"),
       ("IF-MIB::ifDescr", .fstr "eth0")] ∧
    dlookup "error"
      (execute_get translate_oid
        (fun o => if o == "9.9" then .exc "connection refused"
                  else .ok (.vstr "eth0"))
        ["9.9", "1.3.6.1.2.1.2.2.1.2"]) = none := by
  decide

/-- C2 (amended): a transport-level failure raised by the SNMP client on
a per-OID call does not abort GET, GETNEXT or WALK: it is caught by that
command's per-OID handler, recorded inline (keyed by the OID, with an
`"_error"` suffix for WALK), and the remaining OIDs are still processed
from the state that contains the recorded entry; only BULK stops at the
failing OID, and there the already-merged entries are retained with a
top-level `error` entry added beside them rather than the result being
replaced by a single `error` entry. -/
theorem C2_amended_transport_failures :
    (∀ (c : String → GetOutcome) xs o ys, (c o).isFailure = true →
      execute_get translate_oid c (xs ++ o :: ys) =
        execute_get_go translate_oid c ys
          (dinsert o (.fstr (get_failure_text (c o)))
            (execute_get_go translate_oid c xs []))) ∧
    (∀ (c : String → NextOutcome) xs o ys m, c o = .exc m →
      execute_getnext translate_oid c (xs ++ o :: ys) =
        execute_getnext_go translate_oid c ys
          (dinsert o (.fstr ("Error: " ++ m))
            (execute_getnext_go translate_oid c xs []))) ∧
    (∀ (c : String → WalkOutcome) xs o ys m pairs, c o = (pairs, some m) →
      execute_walk translate_oid c (xs ++ o :: ys) =
        execute_walk_go translate_oid c ys
          (dinsert (o ++ "_error") (.fstr ("Error: " ++ m))
            (merge_pairs translate_oid pairs (execute_walk_go translate_oid c xs [])))) ∧
    (∀ (c : String → Nat → Nat → BulkOutcome) xs o ys m nr mr,
      (∀ x ∈ xs, ∃ ps, c x nr mr = BulkOutcome.ok ps) → c o nr mr = .exc m →
      execute_bulk translate_oid c (xs ++ o :: ys) nr mr =
        dinsert "error" (.fstr m) (execute_bulk translate_oid c xs nr mr)) := by
  refine ⟨?_, ?_, ?_, ?_⟩
  · intro c xs o ys hf
    rw [execute_get, execute_get_go_append]
    simp only [execute_get_go, snmp_get_entry_of_failure translate_oid o (c o) hf]
  · intro c xs o ys m hm
    rw [execute_getnext, execute_getnext_go_append]
    simp only [execute_getnext_go, snmp_getnext_entry, hm]
  · intro c xs o ys m pairs hm
    rw [execute_walk, execute_walk_go_append]
    simp only [execute_walk_go, hm]
  · intro c xs o ys m nr mr hok hfail
    rw [execute_bulk, execute_bulk]
    exact execute_bulk_go_ok_prefix_fail translate_oid c nr mr o m hfail xs ys [] hok

/-- Witness for C2 (amended): a timed-out first OID of a GET, with one
further OID still to process. -/
theorem C2_amended_transport_failures_witness :
    execute_get translate_oid
        (fun o => if o == "1.1" then GetOutcome.exc "timed out" else .ok (.vint 7))
        ([] ++ "1.1" :: ["2.2"]) =
      execute_get_go translate_oid
        (fun o => if o == "1.1" then GetOutcome.exc "timed out" else .ok (.vint 7)) ["2.2"]
        (dinsert "1.1"
          (.fstr (get_failure_text
            ((fun o => if o == "1.1" then GetOutcome.exc "timed out" else .ok (.vint 7)) "1.1")))
          (execute_get_go translate_oid
            (fun o => if o == "1.1" then GetOutcome.exc "timed out" else .ok (.vint 7)) [] [])) :=
  C2_amended_transport_failures.1 _ [] "1.1" ["2.2"] (by decide)

/-- C10: when the bulk request for a later OID fails, the entries already
merged from the earlier OIDs are kept, processing stops, and a top-level
`error` entry is added next to them — unconditionally, even though
successful entries exist. -/
theorem C10_bulk_partial_merge_with_error (c : String → Nat → Nat → BulkOutcome)
    (xs ys : List String) (o m : String) (nr mr : Nat)
    (hok : ∀ x ∈ xs, ∃ ps, c x nr mr = BulkOutcome.ok ps)
    (hfail : c o nr mr = .exc m) :
    execute_bulk translate_oid c (xs ++ o :: ys) nr mr =
      dinsert "error" (.fstr m) (execute_bulk translate_oid c xs nr mr) ∧
    (∀ k v, dlookup k (execute_bulk translate_oid c xs nr mr) = some v → k ≠ "error" →
      dlookup k (execute_bulk translate_oid c (xs ++ o :: ys) nr mr) = some v) ∧
    dlookup "error" (execute_bulk translate_oid c (xs ++ o :: ys) nr mr) =
      some (.fstr m) := by
  have h : execute_bulk translate_oid c (xs ++ o :: ys) nr mr =
      dinsert "error" (.fstr m) (execute_bulk translate_oid c xs nr mr) :=
    execute_bulk_go_ok_prefix_fail translate_oid c nr mr o m hfail xs ys [] hok
  refine ⟨h, ?_, ?_⟩
  · intro k v hv hk
    rw [h, dlookup_dinsert, if_neg (fun hh => hk hh.symm)]
    exact hv
  · rw [h, dlookup_dinsert]
    simp

/-- Witness for C10: one successful bulk OID followed by a failing one. -/
theorem C10_bulk_partial_merge_with_error_witness :
    execute_bulk translate_oid
        (fun o _ _ => if o == "1.1" then BulkOutcome.ok [("1.1.1", .vint 5)]
                      else .exc "refused")
        (["1.1"] ++ "2.2" :: []) 0 10 =
      dinsert "error" (.fstr "refused")
        (execute_bulk translate_oid
          (fun o _ _ => if o == "1.1" then BulkOutcome.ok [("1.1.1", .vint 5)]
                        else .exc "refused") ["1.1"] 0 10) ∧
    (∀ k v,
      dlookup k (execute_bulk translate_oid
        (fun o _ _ => if o == "1.1" then BulkOutcome.ok [("1.1.1", .vint 5)]
                      else .exc "refused") ["1.1"] 0 10) = some v → k ≠ "error" →
      dlookup k (execute_bulk translate_oid
        (fun o _ _ => if o == "1.1" then BulkOutcome.ok [("1.1.1", .vint 5)]
                      else .exc "refused") (["1.1"] ++ "2.2" :: []) 0 10) = some v) ∧
    dlookup "error"
      (execute_bulk translate_oid
        (fun o _ _ => if o == "1.1" then BulkOutcome.ok [("1.1.1", .vint 5)]
                      else .exc "refused") (["1.1"] ++ "2.2" :: []) 0 10) =
      some (.fstr "refused") :=
  C10_bulk_partial_merge_with_error _ ["1.1"] [] "2.2" "refused" 0 10
    (fun x hx => ⟨[("1.1.1", .vint 5)], by
      rcases List.mem_singleton.mp hx with h; subst h; rfl⟩) rfl


/-! ## Claim about the retry loop -/

/-- C4: when every attempt raises a rate-limit error, the loop makes
exactly 4 attempts (1 initial + 3 retries) and returns no response, and
the delay before retry number `n` is `base * 2^(n-1)` plus that
iteration's jitter, which lies in `[0, 1)`. -/
theorem C4_rate_limit_retry_ceiling (outcome : Nat → ApiOutcome) (jitter : Nat → ℚ)
    (hout : ∀ i, outcome i = .rateLimited) (hjit : ∀ i, 0 ≤ jitter i ∧ jitter i < 1) :
    call_openai_with_retry outcome jitter =
      ⟨false, 4,
        [retry_base_delay * 2 ^ 0 + jitter 0,
         retry_base_delay * 2 ^ 1 + jitter 1,
         retry_base_delay * 2 ^ 2 + jitter 2]⟩ ∧
    ∀ d ∈ (call_openai_with_retry outcome jitter).delays,
      ∃ n j, n < 3 ∧ 0 ≤ j ∧ j < 1 ∧ d = retry_base_delay * 2 ^ n + j := by
  have h : call_openai_with_retry outcome jitter =
      ⟨false, 4,
        [retry_base_delay * 2 ^ 0 + jitter 0,
         retry_base_delay * 2 ^ 1 + jitter 1,
         retry_base_delay * 2 ^ 2 + jitter 2]⟩ := by
    simp [call_openai_with_retry, call_openai_go, hout, max_retries]
  refine ⟨h, ?_⟩
  rw [h]
  intro d hd
  simp only [List.mem_cons, List.not_mem_nil, or_false] at hd
  rcases hd with h1 | h1 | h1 <;> subst h1
  · exact ⟨0, jitter 0, by norm_num, (hjit 0).1, (hjit 0).2, rfl⟩
  · exact ⟨1, jitter 1, by norm_num, (hjit 1).1, (hjit 1).2, rfl⟩
  · exact ⟨2, jitter 2, by norm_num, (hjit 2).1, (hjit 2).2, rfl⟩

/-- Witness for C4 with zero jitter. -/
theorem C4_rate_limit_retry_ceiling_witness :
    call_openai_with_retry (fun _ => .rateLimited) (fun _ => (0 : ℚ)) =
      ⟨false, 4,
        [retry_base_delay * 2 ^ 0 + 0,
         retry_base_delay * 2 ^ 1 + 0,
         retry_base_delay * 2 ^ 2 + 0]⟩ :=
  (C4_rate_limit_retry_ceiling (fun _ => .rateLimited) (fun _ => (0 : ℚ))
    (fun _ => rfl) (fun _ => ⟨le_refl 0, zero_lt_one⟩)).1

/-! ## Claims about the TTL cache -/

theorem dlookup_eq_none_of_not_mem (k : String) (l : List (String × α))
    (h : k ∉ l.map Prod.fst) : dlookup k l = none := by
  induction l with
  | nil => rfl
  | cons hd tl ih =>
      obtain ⟨k', v⟩ := hd
      simp only [List.map_cons, List.mem_cons] at h
      push_neg at h
      simp [dlookup, Ne.symm h.1, ih h.2]

theorem mem_keys_dinsert (x k : String) (v : α) (l : List (String × α)) :
    x ∈ (dinsert k v l).map Prod.fst ↔ x = k ∨ x ∈ l.map Prod.fst := by
  induction l with
  | nil => simp [dinsert]
  | cons hd tl ih =>
      obtain ⟨k', v'⟩ := hd
      by_cases hk : k' = k <;> simp [dinsert, hk, ih] <;> tauto

theorem nodup_keys_dinsert (k : String) (v : α) (l : List (String × α))
    (h : (l.map Prod.fst).Nodup) : ((dinsert k v l).map Prod.fst).Nodup := by
  induction l with
  | nil => simp [dinsert]
  | cons hd tl ih =>
      obtain ⟨k', v'⟩ := hd
      simp only [List.map_cons, List.nodup_cons] at h
      by_cases hk : k' = k
      · simp [dinsert, hk, List.nodup_cons]
        exact ⟨by simpa [hk] using h.1, h.2⟩
      · simp only [dinsert, beq_iff_eq, hk, if_false, List.map_cons, List.nodup_cons]
        refine ⟨?_, ih h.2⟩
        rw [mem_keys_dinsert]
        push_neg
        exact ⟨hk, h.1⟩

theorem dlookup_dremove_self (k : String) (l : List (String × α))
    (h : (l.map Prod.fst).Nodup) : dlookup k (dremove k l) = none := by
  induction l with
  | nil => rfl
  | cons hd tl ih =>
      obtain ⟨k', v⟩ := hd
      simp only [List.map_cons, List.nodup_cons] at h
      by_cases hk : k' = k
      · subst hk
        simp only [dremove, beq_self_eq_true, if_true]
        exact dlookup_eq_none_of_not_mem k' tl h.1
      · simp [dremove, hk, dlookup, ih h.2]

/-- C7 counterexample: with caching enabled, `set(k, v, ttl=0)` followed
by a `get` 2 seconds later returns the value instead of the claimed
absence (elapsed 2 exceeds the requested ttl 0, but the falsy ttl was
replaced by the 3600-second default). -/
theorem C7_counterexample :
    (get_cache (set_cache (⟨true, [], 0⟩ : CacheState Int) 0 "k" 5 (some 0)) 2 "k").1 =
      some 5 := by
  norm_num [get_cache, set_cache, dinsert, dlookup, maybe_cleanup_cache, cleanup_interval,
    config_cache_ttl]

/-- C7 (amended): with caching enabled and a nonzero requested ttl
(a zero ttl is falsy and is replaced by the configured default, see the
companion claim about falsy ttls), after `set(k, v, ttl)` a `get(k)`
returns the value while the elapsed time is at most `ttl`, and returns
absence and deletes the entry once the elapsed time exceeds `ttl`; a
`get` of a missing key returns absence.  (`hnd` is the dict invariant:
Python dict keys are unique.) -/
theorem C7_amended_cache_ttl {α : Type} (st : CacheState α) (k : String) (v : α)
    (ttl t0 t1 : ℚ) (hen : st.enabled = true) (httl : ttl ≠ 0)
    (hnd : (st.entries.map Prod.fst).Nodup) :
    (t1 - t0 ≤ ttl → (get_cache (set_cache st t0 k v (some ttl)) t1 k).1 = some v) ∧
    (ttl < t1 - t0 →
      (get_cache (set_cache st t0 k v (some ttl)) t1 k).1 = none ∧
      dlookup k ((get_cache (set_cache st t0 k v (some ttl)) t1 k).2).entries = none) ∧
    (∀ key, dlookup key st.entries = none → (get_cache st t1 key).1 = none) := by
  have hset : set_cache st t0 k v (some ttl) =
      { st with entries := dinsert k (v, t0, ttl) st.entries } := by
    simp [set_cache, hen, httl]
  refine ⟨?_, ?_, ?_⟩
  · intro hle
    rw [hset]
    simp [get_cache, hen, dlookup_dinsert, not_lt.mpr hle]
  · intro hgt
    rw [hset]
    have hres : get_cache { st with entries := dinsert k (v, t0, ttl) st.entries } t1 k =
        (none, { st with entries := dremove k (dinsert k (v, t0, ttl) st.entries) }) := by
      simp [get_cache, hen, dlookup_dinsert, hgt]
    rw [hres]
    exact ⟨rfl, dlookup_dremove_self k _ (nodup_keys_dinsert k _ st.entries hnd)⟩
  · intro key hkey
    unfold get_cache
    cases he : st.enabled <;> simp [he, hkey]

/-- Witness for C7 (amended): ttl 1, a hit at elapsed 1, a miss at
elapsed 2 with the entry deleted, and a missing key. -/
theorem C7_amended_cache_ttl_witness :
    (get_cache (set_cache (⟨true, [], 0⟩ : CacheState Int) 0 "k" 5 (some 1)) 1 "k").1 =
      some 5 ∧
    (get_cache (set_cache (⟨true, [], 0⟩ : CacheState Int) 0 "k" 5 (some 1)) 2 "k").1 =
      none ∧
    dlookup "k"
      ((get_cache (set_cache (⟨true, [], 0⟩ : CacheState Int) 0 "k" 5 (some 1)) 2
        "k").2).entries = none ∧
    (get_cache (⟨true, [], 0⟩ : CacheState Int) 2 "q").1 = none :=
  ⟨(C7_amended_cache_ttl (⟨true, [], 0⟩ : CacheState Int) "k" 5 1 0 1 rfl one_ne_zero
      (by simp)).1 (by norm_num),
   ((C7_amended_cache_ttl (⟨true, [], 0⟩ : CacheState Int) "k" 5 1 0 2 rfl one_ne_zero
      (by simp)).2.1 (by norm_num)).1,
   ((C7_amended_cache_ttl (⟨true, [], 0⟩ : CacheState Int) "k" 5 1 0 2 rfl one_ne_zero
      (by simp)).2.1 (by norm_num)).2,
   (C7_amended_cache_ttl (⟨true, [], 0⟩ : CacheState Int) "k" 5 1 0 2 rfl one_ne_zero
      (by simp)).2.2 "q" rfl⟩

/-- C9: a falsy ttl argument (`0`, like `None`) is replaced by the
configured default, so the entry is stored with ttl 3600 rather than as
an already-expired entry, and an immediate `get` still returns the
value. -/
theorem C9_falsy_ttl_uses_default {α : Type} (st : CacheState α) (k : String) (v : α)
    (t : ℚ) (hen : st.enabled = true) :
    (set_cache st t k v (some 0)).entries = dinsert k (v, t, config_cache_ttl) st.entries ∧
    (set_cache st t k v none).entries = dinsert k (v, t, config_cache_ttl) st.entries ∧
    (get_cache (set_cache st t k v (some 0)) t k).1 = some v := by
  refine ⟨by simp [set_cache, hen], by simp [set_cache, hen], ?_⟩
  have hset : set_cache st t k v (some 0) =
      { st with entries := dinsert k (v, t, config_cache_ttl) st.entries } := by
    simp [set_cache, hen]
  rw [hset]
  have hexp : ¬ config_cache_ttl < (0 : ℚ) := by norm_num [config_cache_ttl]
  simp [get_cache, hen, dlookup_dinsert, hexp]

/-- Witness for C9 on the empty enabled cache. -/
theorem C9_falsy_ttl_uses_default_witness :
    (set_cache (⟨true, [], 0⟩ : CacheState Int) 0 "k" 5 (some 0)).entries =
      dinsert "k" ((5 : Int), (0 : ℚ), config_cache_ttl) [] ∧
    (set_cache (⟨true, [], 0⟩ : CacheState Int) 0 "k" 5 none).entries =
      dinsert "k" ((5 : Int), (0 : ℚ), config_cache_ttl) [] ∧
    (get_cache (set_cache (⟨true, [], 0⟩ : CacheState Int) 0 "k" 5 (some 0)) 0 "k").1 =
      some 5 :=
  C9_falsy_ttl_uses_default (⟨true, [], 0⟩ : CacheState Int) "k" 5 0 rfl


/-! ## Claim about value normalization -/

theorem utf8Decode_ascii :
    ∀ (l : List Char), (∀ c ∈ l, c.toNat ≤ 0x7F) →
      utf8Decode (l.map Char.toNat) = some l := by
  intro l
  induction l with
  | nil => intro _; rfl
  | cons c cs ih =>
      intro h
      have hc : c.toNat ≤ 0x7F := h c (by simp)
      have hrest := ih fun x hx => h x (by simp [hx])
      unfold utf8Decode at hrest ⊢
      rw [List.map_cons, utf8Run, if_pos rfl, if_pos hc, hrest]
      simp [Char.ofNat_toNat]

/-- C8: `formatValue` returns the UTF-8 decoding of a byte sequence when
decoding succeeds and its hexadecimal rendering when it fails; integer,
string, boolean and float values pass through unchanged; every other
value is stringified.  Decoding is inverse to encoding on ASCII data, and
the two concrete byte cases exercise a successful decode and a
hex-rendered failure. -/
theorem C8_format_value_spec :
    (∀ bs, format_value (.vbytes bs) =
      (match utf8Decode bs with
       | some cs => .fstr (String.mk cs)
       | none => .fstr (bytesToHex bs))) ∧
    (∀ i, format_value (.vint i) = .fint i) ∧
    (∀ s, format_value (.vstr s) = .fstr s) ∧
    (∀ b, format_value (.vbool b) = .fbool b) ∧
    (∀ bits, format_value (.vfloat bits) = .ffloat bits) ∧
    (∀ r, format_value (.vother r) = .fstr r) ∧
    (∀ s : String, (∀ c ∈ s.data, c.toNat ≤ 0x7F) →
      format_value (.vbytes (s.data.map Char.toNat)) = .fstr s) ∧
    format_value (.vbytes [0xC3, 0xA9]) = .fstr "é" ∧
    format_value (.vbytes [0xFF, 0x10]) = .fstr "ff10" := by
  refine ⟨fun bs => rfl, fun i => rfl, fun s => rfl, fun b => rfl, fun bits => rfl,
    fun r => rfl, ?_, by decide, by decide⟩
  intro s hs
  simp [format_value, utf8Decode_ascii s.data hs]

/-- Witness for C8 on an ASCII byte string. -/
theorem C8_format_value_spec_witness :
    format_value (.vbytes ("Linux".data.map Char.toNat)) = .fstr "Linux" :=
  C8_format_value_spec.2.2.2.2.2.2.1 "Linux" (by decide)

end SnmpAI
